import Mathlib

/-!
Shallow embedding of the openDG temporal-graph core: the event data model
(src/opendg/events.py), the dictionary storage backend
(src/opendg/_storage/backends/dict_backend.py), the DGraph view with its
memoizing cache (src/opendg/graph.py) and the batch loader
(src/opendg/loader.py).

Modelling conventions:
* machine ints are `Int` (timestamps) and `Nat` (node ids, counts);
* Python `None` becomes `Option`; fallible calls return `Except String`;
* the dict backend buckets events by timestamp, but every query iterates
  all buckets and filters event by event, so the flat insertion-ordered
  event list with per-event filters is observationally the same structure;
* feature tensors are embedded as their shape (a list of dimension sizes):
  no verified claim observes the numeric entries, only presence and shape.
-/

namespace OpenDG

/-- A feature tensor, embedded as its shape. -/
abbrev FeatShape := List Nat

/-- src/opendg/events.py: an event is either a NodeEvent
(time, node_id, optional features) or an EdgeEvent
(time, (src, dst), optional features). -/
inductive Event where
  | node (time : Int) (nodeId : Nat) (features : Option FeatShape)
  | edge (time : Int) (ed : Nat × Nat) (features : Option FeatShape)
  deriving DecidableEq, Repr

/-- The `time` property shared by both event kinds. -/
def Event.time : Event → Int
  | .node t _ _ => t
  | .edge t _ _ => t

/-- The node-slice test the dict backend applies to a single event: a
NodeEvent matches when its node id is in the slice, an EdgeEvent when the
slice meets its endpoints (`len(set(event.edge).intersection(node_slice))`
in the source). -/
def Event.matchesNodeSlice (ev : Event) (ns : Finset Nat) : Bool :=
  match ev with
  | .node _ i _ => i ∈ ns
  | .edge _ e _ => e.1 ∈ ns || e.2 ∈ ns

/-- Node filter with `none` meaning unconstrained (`node_slice is None`). -/
def matchesSlice (ns : Option (Finset Nat)) (ev : Event) : Bool :=
  match ns with
  | none => true
  | some s => ev.matchesNodeSlice s

/-- The half-open-by-code time window test `lb_time <= t < ub_time`, where a
missing bound is minus/plus infinity in the source. -/
def inTimeRange (startTime endTime : Option Int) (t : Int) : Bool :=
  (match startTime with
   | none => true
   | some lb => decide (lb ≤ t)) &&
  (match endTime with
   | none => true
   | some ub => decide (t < ub))

/-- One event passes a (time, node) slice when it is inside the time window
and matches the node filter. -/
def matchesFilters (startTime endTime : Option Int) (ns : Option (Finset Nat))
    (ev : Event) : Bool :=
  inTimeRange startTime endTime ev.time && matchesSlice ns ev

/-- DGStorageDictBackend: the authoritative events plus the per-kind feature
shapes established at construction (the timestamp bucketing of the source is
kept as the flat insertion-ordered list, see the file header). -/
structure DGStorage where
  events : List Event
  node_feats_shape : Option FeatShape
  edge_feats_shape : Option FeatShape
  deriving DecidableEq, Repr

/-- dict_backend.to_events: the events inside the time window that match
the node filter. -/
def DGStorage.to_events (st : DGStorage) (startTime endTime : Option Int)
    (nodeSlice : Option (Finset Nat)) : List Event :=
  st.events.filter (matchesFilters startTime endTime nodeSlice)

/-- The running-minimum fold of dict_backend.get_start_time
(`if start_time is None or t < start_time`). -/
def minFold (l : List Int) : Option Int :=
  l.foldl (fun acc t =>
    match acc with
    | none => some t
    | some m => if t < m then some t else some m) none

/-- The running-maximum fold of dict_backend.get_end_time. -/
def maxFold (l : List Int) : Option Int :=
  l.foldl (fun acc t =>
    match acc with
    | none => some t
    | some m => if t > m then some t else some m) none

/-- dict_backend.get_start_time: minimum time over the timestamps holding at
least one event that matches the node filter (no time bound is taken). -/
def DGStorage.get_start_time (st : DGStorage) (nodeSlice : Option (Finset Nat)) :
    Option Int :=
  minFold ((st.events.filter (matchesSlice nodeSlice)).map Event.time)

/-- dict_backend.get_end_time: maximum matching time, same filtering. -/
def DGStorage.get_end_time (st : DGStorage) (nodeSlice : Option (Finset Nat)) :
    Option Int :=
  maxFold ((st.events.filter (matchesSlice nodeSlice)).map Event.time)

/-- dict_backend.get_nodes. A NodeEvent adds its node id to the
accumulator. For an EdgeEvent the source evaluates `nodes.union(event.edge)`
and discards the freshly built union, leaving the accumulator unchanged;
the embedding reproduces that behaviour. -/
def DGStorage.get_nodes (st : DGStorage) (startTime endTime : Option Int) :
    Finset Nat :=
  (st.events.filter (fun ev => inTimeRange startTime endTime ev.time)).foldl
    (fun nodes ev =>
      match ev with
      | .node _ i _ => insert i nodes
      | .edge _ _ _ => nodes) ∅

/-- Whether an edge event at time `t` on endpoints `p` enters the edge set
of get_num_edges: inside the time window and meeting the node filter. -/
def edgeCond (startTime endTime : Option Int) (ns : Option (Finset Nat))
    (t : Int) (p : Nat × Nat) : Bool :=
  inTimeRange startTime endTime t && matchesSlice ns (.edge t p none)

/-- The `edges.add((event.time, event.edge))` accumulation loop of
dict_backend.get_num_edges. -/
def numEdgesFold (startTime endTime : Option Int) (ns : Option (Finset Nat)) :
    List Event → Finset (Int × Nat × Nat) → Finset (Int × Nat × Nat)
  | [], acc => acc
  | ev :: rest, acc =>
      numEdgesFold startTime endTime ns rest
        (match ev with
         | .edge t p _ => if edgeCond startTime endTime ns t p
             then insert (t, p.1, p.2) acc else acc
         | .node _ _ _ => acc)

/-- dict_backend.get_num_edges: the number of distinct
(time, (src, dst)) triples among edge events inside the window that meet the
node filter. -/
def DGStorage.get_num_edges (st : DGStorage) (startTime endTime : Option Int)
    (nodeSlice : Option (Finset Nat)) : Nat :=
  (numEdgesFold startTime endTime nodeSlice st.events ∅).card

/-- The (time, src, dst) triple get_num_edges collects from one event, or
none when the event is an excluded or non-edge event. -/
def edgePairOf (startTime endTime : Option Int) (ns : Option (Finset Nat)) :
    Event → Option (Int × Nat × Nat)
  | .edge t p _ => if edgeCond startTime endTime ns t p then some (t, p.1, p.2) else none
  | .node _ _ _ => none

/-- The `timestamps.add(t)` accumulation loop of
dict_backend.get_num_timestamps over the matching events. -/
def timesFold : List Event → Finset Int → Finset Int
  | [], acc => acc
  | ev :: rest, acc => timesFold rest (insert ev.time acc)

/-- dict_backend.get_num_timestamps: the number of distinct timestamps
holding at least one matching event. -/
def DGStorage.get_num_timestamps (st : DGStorage) (startTime endTime : Option Int)
    (nodeSlice : Option (Finset Nat)) : Nat :=
  (timesFold (st.events.filter (matchesFilters startTime endTime nodeSlice)) ∅).card

/-- Modelled from the spec: `get_num_events(slice) -> int` is the count of
individual matching events with no dedup. Its definition lives in a storage
file that is not among the sources (only its tests and the loader use it). -/
def DGStorage.get_num_events (st : DGStorage) (startTime endTime : Option Int)
    (nodeSlice : Option (Finset Nat)) : Nat :=
  (st.to_events startTime endTime nodeSlice).length

/-- dict_backend.get_node_feats: the (time, node_id, features) entries of
matching NodeEvents carrying features, or `None` when there are none. The
sparse-tensor packaging (and its shape, which the source reads from
storage-level cached properties outside these sources) is abstracted away;
the claims only observe presence. -/
def DGStorage.get_node_feats (st : DGStorage) (startTime endTime : Option Int)
    (nodeSlice : Option (Finset Nat)) : Option (List (Int × Nat × FeatShape)) :=
  let entries := st.events.filterMap (fun ev =>
    match ev with
    | .node t i (some f) =>
        if inTimeRange startTime endTime t && matchesSlice nodeSlice (.node t i (some f))
        then some (t, i, f) else none
    | _ => none)
  if entries.isEmpty then none else some entries

/-- One (time, src, dst, features) entry of the edge-feature tensor. -/
structure EdgeFeatEntry where
  time : Int
  src : Nat
  dst : Nat
  feats : FeatShape
  deriving DecidableEq, Repr

/-- dict_backend.get_edge_feats: the (time, src, dst, features) entries of
matching EdgeEvents carrying features, or `None` when there are none. -/
def DGStorage.get_edge_feats (st : DGStorage) (startTime endTime : Option Int)
    (nodeSlice : Option (Finset Nat)) : Option (List EdgeFeatEntry) :=
  let entries := st.events.filterMap (fun ev =>
    match ev with
    | .edge t e (some f) =>
        if inTimeRange startTime endTime t && matchesSlice nodeSlice (.edge t e (some f))
        then some { time := t, src := e.1, dst := e.2, feats := f } else none
    | _ => none)
  if entries.isEmpty then none else some entries

/-- The node-event feature shapes of a list, in order. -/
def nodeFeatShapes (events : List Event) : List FeatShape :=
  events.filterMap (fun ev =>
    match ev with
    | .node _ _ (some f) => some f
    | _ => none)

/-- The edge-event feature shapes of a list, in order. -/
def edgeFeatShapes (events : List Event) : List FeatShape :=
  events.filterMap (fun ev =>
    match ev with
    | .edge _ _ (some f) => some f
    | _ => none)

/-- Modelled from the spec: the per-kind feature-shape check of the storage
base class (dict_backend calls `_check_node_feature_shapes` /
`_check_edge_feature_shapes`, whose definitions are not among the sources):
the first non-null shape seen becomes the expected shape, every later shape
of the kind must equal it or a dimension-mismatch ValueError is raised, and
the final expected shape is returned. -/
def checkShapes : List FeatShape → Option FeatShape → Except String (Option FeatShape)
  | [], expected => .ok expected
  | sh :: rest, none => checkShapes rest (some sh)
  | sh :: rest, some s =>
      if sh = s then checkShapes rest (some s)
      else .error "ValueError: incompatible feature shape"

/-- dict_backend __init__: validate the per-kind feature shapes, then store
the events. -/
def mkDGStorage (events : List Event) : Except String DGStorage := do
  let nsh ← checkShapes (nodeFeatShapes events) none
  let esh ← checkShapes (edgeFeatShapes events) none
  .ok { events := events, node_feats_shape := nsh, edge_feats_shape := esh }

/-- dict_backend.append: on a non-empty storage the established per-kind
shapes are enforced, on an empty storage the expected shapes reset to None
so the new events set them afresh; on success the events join the
authoritative set (the source mutates in place and returns self; the
embedding returns the new value). -/
def DGStorage.append (st : DGStorage) (events : List Event) : Except String DGStorage := do
  let expNode := if st.events.isEmpty then none else st.node_feats_shape
  let expEdge := if st.events.isEmpty then none else st.edge_feats_shape
  let nsh ← checkShapes (nodeFeatShapes events) expNode
  let esh ← checkShapes (edgeFeatShapes events) expEdge
  .ok { events := st.events ++ events, node_feats_shape := nsh, edge_feats_shape := esh }

/-- Modelled from the spec: the TimeDelta units — the physical units of the
fixed conversion table plus the ordered (event-count) unit `r`.
src/opendg/timedelta.py is not among the sources; only its tests and its
callers are. -/
inductive TimeUnit where
  | r | Y | M | W | D | h | m | s | ms | us | ns
  deriving DecidableEq, Repr

/-- Modelled from the spec: the fixed conversion table to nanoseconds
(ms = 1e3 us chained down to ns, m = 60 s, h = 60 m, D = 24 h, W = 7 D,
M = 30 D, Y = 365 D). `r` carries no physical duration; every use of this
table is guarded by an is-ordered check. -/
def TimeUnit.nanos : TimeUnit → Nat
  | .r => 0
  | .ns => 1
  | .us => 1000
  | .ms => 1000000
  | .s => 1000000000
  | .m => 60000000000
  | .h => 3600000000000
  | .D => 86400000000000
  | .W => 604800000000000
  | .M => 2592000000000000
  | .Y => 31536000000000000

/-- Modelled from the spec: a TimeDeltaDG is a unit together with a positive
integer value. -/
structure TimeDeltaDG where
  unit : TimeUnit
  value : Nat
  deriving DecidableEq, Repr

/-- Modelled from the spec: the TimeDeltaDG constructor rejects non-positive
values, and the ordered unit only accepts value 1. -/
def mkTimeDeltaDG (unit : TimeUnit) (value : Nat) : Except String TimeDeltaDG :=
  if value = 0 then .error "ValueError: value must be a positive integer"
  else if unit = .r ∧ value ≠ 1 then
    .error "ValueError: ordered time deltas must have value 1"
  else .ok { unit := unit, value := value }

/-- Whether the delta is the ordered (event-count) granularity. -/
def TimeDeltaDG.is_ordered (td : TimeDeltaDG) : Bool := td.unit = .r

/-- Total physical duration in nanoseconds. -/
def TimeDeltaDG.nanosTotal (td : TimeDeltaDG) : Nat := td.unit.nanos * td.value

/-- Modelled from the spec: convert returns the dimensionless ratio of the
two durations and fails when exactly one side is ordered (ordered and
physical units are incommensurable). -/
def TimeDeltaDG.convert (td other : TimeDeltaDG) : Except String ℚ :=
  if td.is_ordered != other.is_ordered then
    .error "ValueError: cannot convert between ordered and physical deltas"
  else if td.is_ordered then .ok ((td.value : ℚ) / (other.value : ℚ))
  else .ok ((td.nanosTotal : ℚ) / (other.nanosTotal : ℚ))

/-- Modelled from the spec: one time delta is coarser than another when its
physical duration is strictly larger. -/
def TimeDeltaDG.is_coarser_than (td other : TimeDeltaDG) : Bool :=
  decide (other.nanosTotal < td.nanosTotal)

/-- The default ordered granularity `TimeDeltaDG(r)` of DGraph.__init__. -/
def orderedDelta : TimeDeltaDG := { unit := .r, value := 1 }

/-- The `_cache` dict of a DGraph view (src/opendg/graph.py). A `none`
field stands both for a missing key and for a key holding Python None:
every cache read in graph.py goes through `.get(key) is None`, which cannot
tell the two apart. The one exception is the key edge_feats, which is read
by subscript (`self._cache[edge_feats]`) but never written on any code
path; that field keeps an outer Option tracking key presence so the
resulting KeyError is representable. The key edge_feats_feats is the
misspelled target DGraph.edge_feats actually writes to. -/
structure DGCache where
  start_time : Option Int := none
  end_time : Option Int := none
  node_slice : Option (Finset Nat) := none
  num_nodes : Option Nat := none
  num_edges : Option Nat := none
  num_timestamps : Option Nat := none
  node_feats : Option (List (Int × Nat × FeatShape)) := none
  edge_feats : Option (Option (List EdgeFeatEntry)) := none
  edge_feats_feats : Option (List EdgeFeatEntry) := none
  deriving DecidableEq

/-- A DGraph view: shared storage, time granularity and the mutable cache.
`copy.copy` in slice_time / slice_nodes is a shallow copy, so the returned
view and its parent share one cache dict; each embedded operation returns
the single resulting state (the parent sees the same dict afterwards). -/
structure DGraphState where
  storage : DGStorage
  time_delta : TimeDeltaDG
  cache : DGCache
  deriving DecidableEq

/-- DGraph.__init__ over an event list; a missing time_delta defaults to
the ordered granularity, and the cache starts empty. -/
def mkDGraph (events : List Event) (td : Option TimeDeltaDG) :
    Except String DGraphState := do
  let st ← mkDGStorage events
  .ok { storage := st, time_delta := td.getD orderedDelta, cache := {} }

/-- DGraph.start_time: memoized through the cache; a recomputed None is
stored as None and hence recomputed on every later read, as in the source. -/
def DGraphState.start_time (g : DGraphState) : Option Int × DGraphState :=
  match g.cache.start_time with
  | some t => (some t, g)
  | none =>
      let v := g.storage.get_start_time g.cache.node_slice
      (v, { g with cache := { g.cache with start_time := v } })

/-- DGraph.end_time: same memoization pattern as start_time. -/
def DGraphState.end_time (g : DGraphState) : Option Int × DGraphState :=
  match g.cache.end_time with
  | some t => (some t, g)
  | none =>
      let v := g.storage.get_end_time g.cache.node_slice
      (v, { g with cache := { g.cache with end_time := v } })

/-- DGraph.num_nodes: fills the node_slice cache from get_nodes when absent,
then takes `max(node_slice) + 1`; `max` of an empty set raises ValueError. -/
def DGraphState.num_nodes (g : DGraphState) : Except String (Nat × DGraphState) :=
  match g.cache.num_nodes with
  | some n => .ok (n, g)
  | none =>
      let s :=
        match g.cache.node_slice with
        | some s => s
        | none => g.storage.get_nodes g.cache.start_time g.cache.end_time
      let c := { g.cache with node_slice := some s }
      if h : s.Nonempty then
        let n := s.max' h + 1
        .ok (n, { g with cache := { c with num_nodes := some n } })
      else .error "ValueError: max of an empty node set"

/-- DGraph.num_edges: memoized get_num_edges over the cached slice. -/
def DGraphState.num_edges (g : DGraphState) : Nat × DGraphState :=
  match g.cache.num_edges with
  | some n => (n, g)
  | none =>
      let v := g.storage.get_num_edges g.cache.start_time g.cache.end_time
        g.cache.node_slice
      (v, { g with cache := { g.cache with num_edges := some v } })

/-- DGraph.num_timestamps: memoized get_num_timestamps over the cached
slice; also the value of `len(view)`. -/
def DGraphState.num_timestamps (g : DGraphState) : Nat × DGraphState :=
  match g.cache.num_timestamps with
  | some n => (n, g)
  | none =>
      let v := g.storage.get_num_timestamps g.cache.start_time g.cache.end_time
        g.cache.node_slice
      (v, { g with cache := { g.cache with num_timestamps := some v } })

/-- DGraph.node_feats: memoized get_node_feats; a None result is stored as
None and recomputed on each later read. -/
def DGraphState.node_feats (g : DGraphState) :
    Option (List (Int × Nat × FeatShape)) × DGraphState :=
  match g.cache.node_feats with
  | some v => (some v, g)
  | none =>
      let v := g.storage.get_node_feats g.cache.start_time g.cache.end_time
        g.cache.node_slice
      (v, { g with cache := { g.cache with node_feats := v } })

/-- DGraph.edge_feats as written in the source: when the edge_feats key
reads as None it computes get_edge_feats but stores the result under the
key edge_feats_feats, then returns the subscript `self._cache[edge_feats]`;
no code path ever writes that key, so the subscript raises KeyError. -/
def DGraphState.edge_feats (g : DGraphState) :
    Except String (Option (List EdgeFeatEntry) × DGraphState) :=
  let cached : Option (List EdgeFeatEntry) :=
    match g.cache.edge_feats with
    | none => none
    | some v => v
  let g1 :=
    if cached.isNone then
      let v := g.storage.get_edge_feats g.cache.start_time g.cache.end_time
        g.cache.node_slice
      { g with cache := { g.cache with edge_feats_feats := v } }
    else g
  match g1.cache.edge_feats with
  | none => .error "KeyError: edge_feats"
  | some v => .ok (v, g1)

/-- DGraph.slice_time: rejects start > end, reads the (memoizing)
start_time / end_time properties, keeps a bound only when it strictly
narrows the current one, and on any narrowing clears the shared cache dict
and stores just the two new bounds (dropping, in particular, any node
filter the view carried). -/
def DGraphState.slice_time (g : DGraphState) (s e : Int) :
    Except String DGraphState :=
  if s > e then
    .error "ValueError: start_time must not exceed end_time"
  else
    let (st, g1) := g.start_time
    let (et, g2) := g1.end_time
    let newStart : Option Int :=
      match st with
      | some m => if s > m then some s else none
      | none => none
    let newEnd : Option Int :=
      match et with
      | some mx => if e < mx then some e else none
      | none => none
    if newStart.isSome || newEnd.isSome then
      .ok { g2 with cache := { start_time := newStart, end_time := newEnd } }
    else
      .ok g2

/-- DGraph.slice_nodes: `copy.copy(self)` then `dg._cache.clear()` empties
the shared dict, so the following `self._cache.get(node_slice) is None`
always holds; num_nodes is then computed on the cleared cache, node_slice
is overwritten with `set(range(num_nodes))` and finally intersected with
the requested nodes. -/
def DGraphState.slice_nodes (g : DGraphState) (nodes : Finset Nat) :
    Except String DGraphState := do
  let g0 : DGraphState := { g with cache := {} }
  let (n, g1) ← g0.num_nodes
  let g2 := { g1 with cache := { g1.cache with node_slice := some (Finset.range n) } }
  .ok { g2 with cache := { g2.cache with node_slice := some (Finset.range n ∩ nodes) } }

/-- The events a view exposes: DGraph.to_csv materializes exactly
`storage.to_events(cache start_time, cache end_time, cache node_slice)`. -/
def DGraphState.to_events (g : DGraphState) : List Event :=
  g.storage.to_events g.cache.start_time g.cache.end_time g.cache.node_slice

/-- Equality of `Except` results is decidable componentwise. -/
instance {e a : Type} [DecidableEq e] [DecidableEq a] : DecidableEq (Except e a) := fun x y =>
  match x, y with
  | .ok u, .ok v =>
      if h : u = v then .isTrue (congrArg Except.ok h)
      else .isFalse (fun he => h (Except.ok.inj he))
  | .error u, .error v =>
      if h : u = v then .isTrue (congrArg Except.error h)
      else .isFalse (fun he => h (Except.error.inj he))
  | .ok _, .error _ => .isFalse (fun he => Except.noConfusion he)
  | .error _, .ok _ => .isFalse (fun he => Except.noConfusion he)

/-- Python `range(start, stop, step)` for a positive step: the `k`-th
element is `start + k * step` and there are `ceil((stop - start) / step)`
of them. -/
def pyRange (start stop step : Int) : List Int :=
  if start < stop ∧ 0 < step then
    (List.range (((stop - start - 1) / step).toNat + 1)).map (fun k => start + k * step)
  else []

/-- The observable result of DGDataLoader.__init__: the window starts
handed to the underlying torch DataLoader (each start becomes exactly one
yielded batch; iteration stops when the list is exhausted), the converted
batch size, and whether windows advance by physical time. -/
structure DGDataLoader where
  slice_start : List Int
  batch_size : Int
  iterate_by_time : Bool
  deriving DecidableEq, Repr

/-- DGDataLoader.__init__ (src/opendg/loader.py): validates the batch size,
non-emptiness of the view and the ordered/physical compatibility of the
batch unit with the graph granularity, converts a physical batch window
into the graph unit, and builds the window starts as
`range(start_idx, stop_idx, batch_size)` — with the upper end lowered by
batch_size when drop_last is set. `dg.num_events`, used as the stop index
of ordered iteration, is the spec-modelled count of matching events; the
`if bs = 0` guard mirrors Python `range` rejecting a zero step (the source
reaches `range` with that value only if the conversion rounds to zero). -/
def loaderInit (dg : DGraphState) (batchSize : Int) (batchUnit : TimeUnit)
    (dropLast : Bool) : Except String (DGDataLoader × DGraphState) := do
  if batchSize ≤ 0 then
    .error "ValueError: batch_size must be positive" else
  let (len0, g1) := dg.num_timestamps
  if len0 = 0 then
    .error "ValueError: cannot iterate an empty DGraph" else
  let dgOrdered := dg.time_delta.is_ordered
  let batchOrdered : Bool := batchUnit = TimeUnit.r
  if dgOrdered && !batchOrdered then
    .error "ValueError: cannot iterate ordered dg with non-ordered batch unit" else
  if !dgOrdered && batchOrdered then
    .error "ValueError: cannot iterate non-ordered dg with ordered batch unit" else
  let bs ←
    if !dgOrdered && !batchOrdered then do
      let btd ← mkTimeDeltaDG batchUnit batchSize.toNat
      if dg.time_delta.is_coarser_than btd then
        .error "ValueError: dg time delta is coarser than the batch window"
      else
        -- int(batch_time_delta.convert(dg.time_delta)): both durations are
        -- positive integers of nanoseconds, so truncating their exact ratio
        -- toward zero is their Nat division
        pure ((btd.nanosTotal / dg.time_delta.nanosTotal : Nat) : Int)
    else pure batchSize
  if bs = 0 then
    .error "ValueError: range step must not be zero" else
  let (st, g2) := g1.start_time
  let (et, g3) := g2.end_time
  match st, et with
  | some startT, some endT =>
      let startIdx : Int := if batchOrdered then 0 else startT
      let stopIdx : Int :=
        if batchOrdered then
          (g3.storage.get_num_events g3.cache.start_time g3.cache.end_time
            g3.cache.node_slice : Int)
        else endT + 1
      let starts :=
        if dropLast then pyRange startIdx (stopIdx - bs) bs
        else pyRange startIdx stopIdx bs
      .ok ({ slice_start := starts, batch_size := bs,
             iterate_by_time := !batchOrdered }, g3)
  | _, _ => .error "AssertionError: start or end time is None"


/-! ### Fixtures for the claim theorems -/

/-- The two-edge-event scenario of the spec:
events at t = 1 on (2, 3) and t = 5 on (10, 20). -/
def evsC1 : List Event := [.edge 1 (2, 3) none, .edge 5 (10, 20) none]

/-- A node-only two-event graph: node 1 at t = 1 and node 2 at t = 5. -/
def evsC3 : List Event := [.node 1 1 none, .node 5 2 none]

/-- Three edge events on one edge at t = 0, 5, 10. -/
def evsC4 : List Event := [.edge 0 (0, 1) none, .edge 5 (0, 1) none, .edge 10 (0, 1) none]

/-- The fresh ordered view over the spec scenario events. -/
def gC6 : DGraphState :=
  { storage :=
      { events := [.edge 1 (2, 3) none, .edge 5 (10, 20) none],
        node_feats_shape := none, edge_feats_shape := none },
    time_delta := orderedDelta, cache := {} }

/-- One-second graph granularity. -/
def secondDelta : TimeDeltaDG := { unit := .s, value := 1 }

/-- A second-granularity view with edge events at t = 0 and t = 1: its span
is exactly two windows of a one-second batch. -/
def gC7time : DGraphState :=
  { storage :=
      { events := [.edge 0 (0, 1) none, .edge 1 (2, 3) none],
        node_feats_shape := none, edge_feats_shape := none },
    time_delta := secondDelta, cache := {} }

/-- A fresh ordered view with two edge events: its two events are exactly
two windows of an ordered batch of size one. -/
def gC7ord : DGraphState :=
  { storage :=
      { events := [.edge 1 (0, 1) none, .edge 5 (2, 3) none],
        node_feats_shape := none, edge_feats_shape := none },
    time_delta := orderedDelta, cache := {} }

/-! ### Claim theorems -/

/-- C1: the claim says slice_time(s, e) always excludes events with
time == e, including when e equals the view's maximum event time. The code
refutes it: on the graph with events at t = 1 and t = 5, slice_time(2, 5)
keeps only the start bound (the end bound is dropped because `e < end_time`
fails at e = end_time), so the event at time 5 — equal to the excluded
endpoint e — stays observable. -/
theorem c1_slice_time_keeps_event_at_end_bound :
    (do
      let g ← mkDGraph evsC1 none
      let g2 ← g.slice_time 2 5
      pure g2.to_events) = .ok [Event.edge 5 (10, 20) none] := by decide

/-- C2: the claim says get_nodes returns the union of node ids touched,
with an EdgeEvent contributing both endpoints. The code refutes it:
`nodes.union(event.edge)` builds the union and discards it, so on a graph
holding NodeEvent(t=1, node=7) and EdgeEvent(t=1, edge=(2, 3)) the result
is {7} instead of {7, 2, 3}. -/
theorem c2_get_nodes_drops_edge_endpoints :
    DGStorage.get_nodes
      { events := [.node 1 7 none, .edge 1 (2, 3) none],
        node_feats_shape := none, edge_feats_shape := none } none none = {7} := by decide

/-- C3: the claim says any slice sequence only narrows the observable
event set, and in particular slice_time after slice_nodes keeps excluding
what the node filter excluded. The code refutes it: on node events
(t=1, node 1) and (t=5, node 2), slicing to nodes {1} observes only the
node-1 event, but a following slice_time(2, 6) clears the shared cache —
dropping the node filter — and observes exactly the node-2 event at t = 5,
which the parent view had excluded (not a subset of the parent's set). -/
theorem c3_slice_time_after_slice_nodes_forgets_node_filter :
    (do
      let g ← mkDGraph evsC3 none
      let v2 ← g.slice_nodes {1}
      let v3 ← v2.slice_time 2 6
      pure (v2.to_events, v3.to_events)) =
      .ok ([Event.node 1 1 none], [Event.node 5 2 none]) := by decide

/-- C4: the claim says v.slice_time(c, d).slice_time(a, b) equals
v.slice_time(a, b) whenever c <= a <= b <= d. The code refutes it at
c = 1, a = 1, b = 6, d = 20 on events at t = 0, 5, 10: the inner slice sets
only the start bound 1; the outer slice then sees start_time 1, treats
a = 1 as not narrowing (`a > start_time` is strict), clears the cache and
keeps only the end bound — so the chained view observes the t = 0 event
that the direct slice excludes. -/
theorem c4_nested_slice_time_differs_from_direct :
    (do
      let g ← mkDGraph evsC4 none
      let w1 ← g.slice_time 1 20
      let w2 ← w1.slice_time 1 6
      let u ← g.slice_time 1 6
      pure (w2.to_events, u.to_events)) =
      .ok ([Event.edge 0 (0, 1) none, Event.edge 5 (0, 1) none],
           [Event.edge 5 (0, 1) none]) := by decide

/-- C5: the claim says every cached accessor, edge_feats included, can be
read without error. The code refutes it: DGraph.edge_feats stores the
computed tensor under the misspelled key edge_feats_feats and then returns
the subscript of the never-written key edge_feats, raising KeyError on
every read (here on a one-edge-event graph with a feature). -/
theorem c5_edge_feats_read_raises_keyerror :
    (do
      let g ← mkDGraph [Event.edge 1 (2, 3) (some [5])] none
      g.edge_feats) = .error "KeyError: edge_feats" := by decide

/-- C6: the claim expects start_time = 1, end_time = 5, num_nodes = 21,
num_edges = 2, num_timestamps = 2 on the two-edge-event scenario. The code
matches every part except num_nodes: get_nodes never records edge
endpoints, so the node set is empty and `max(node_slice) + 1` raises
ValueError instead of returning 21. -/
theorem c6_concrete_scenario_num_nodes_raises :
    mkDGraph [.edge 1 (2, 3) none, .edge 5 (10, 20) none] none = .ok gC6 ∧
    gC6.start_time.1 = some 1 ∧ gC6.end_time.1 = some 5 ∧
    gC6.num_edges.1 = 2 ∧ gC6.num_timestamps.1 = 2 ∧
    gC6.num_nodes.isOk = false := by decide

/-- C7: the claim says a loader over a view spanning exactly two full
windows yields two batches, and with drop_last only a short final window is
dropped. The code refutes the drop_last part: over the two-second view with
one-second batches the loader yields the starts range(0, 2) = two batches,
but with drop_last it builds range(0, stop - batch_size) whose exclusive
upper end also drops the exactly-full final window, yielding one batch. An
ordered loader over two events with batch size one even yields a single
batch without drop_last, because its stop index dg.num_events is computed
after the constructor's asserts cached end_time = 5, which the query then
treats as an exclusive bound, hiding the last event. -/
theorem c7_drop_last_drops_exactly_full_final_window :
    (loaderInit gC7time 1 .s false).toOption.map (fun p => p.1.slice_start.length) = some 2 ∧
    (loaderInit gC7time 1 .s true).toOption.map (fun p => p.1.slice_start.length) = some 1 ∧
    (loaderInit gC7ord 1 .r false).toOption.map (fun p => p.1.slice_start.length) = some 1 := by decide


/-! ### Supporting lemmas -/

theorem except_bind_ok {e a b : Type} (x : a) (f : a → Except e b) :
    (Except.ok x : Except e a) >>= f = f x := rfl

theorem except_bind_error {e a b : Type} (m : e) (f : a → Except e b) :
    (Except.error m : Except e a) >>= f = .error m := rfl

theorem numEdgesFold_eq (s e : Option Int) (ns : Option (Finset Nat))
    (l : List Event) (acc : Finset (Int × Nat × Nat)) :
    numEdgesFold s e ns l acc = acc ∪ (l.filterMap (edgePairOf s e ns)).toFinset := by
  induction l generalizing acc with
  | nil => simp [numEdgesFold]
  | cons ev rest ih =>
      cases ev with
      | node t i f => simp [numEdgesFold, edgePairOf, List.filterMap_cons, ih]
      | edge t p f =>
          by_cases h : edgeCond s e ns t p = true
          · simp [numEdgesFold, edgePairOf, List.filterMap_cons, h, ih,
              Finset.insert_union, Finset.union_insert]
          · simp [numEdgesFold, edgePairOf, List.filterMap_cons, h, ih]

theorem timesFold_eq (l : List Event) (acc : Finset Int) :
    timesFold l acc = acc ∪ (l.map Event.time).toFinset := by
  induction l generalizing acc with
  | nil => simp [timesFold]
  | cons ev rest ih =>
      simp [timesFold, ih, Finset.insert_union, Finset.union_insert]

theorem get_num_edges_eq_card (st : DGStorage) (s e : Option Int)
    (ns : Option (Finset Nat)) :
    st.get_num_edges s e ns = (st.events.filterMap (edgePairOf s e ns)).toFinset.card := by
  simp [DGStorage.get_num_edges, numEdgesFold_eq]

theorem checkShapes_ok_of_all {shapes : List FeatShape} {s : FeatShape}
    (h : ∀ sh ∈ shapes, sh = s) : checkShapes shapes (some s) = .ok (some s) := by
  induction shapes with
  | nil => rfl
  | cons a rest ih =>
      have ha : a = s := h a (List.mem_cons_self a rest)
      simp only [checkShapes, ha, if_pos rfl]
      exact ih (fun sh hsh => h sh (List.mem_cons_of_mem a hsh))

theorem checkShapes_error_of_mismatch {shapes : List FeatShape} {s : FeatShape}
    (h : ∃ sh ∈ shapes, sh ≠ s) :
    checkShapes shapes (some s) = .error "ValueError: incompatible feature shape" := by
  induction shapes with
  | nil => rcases h with ⟨sh, hm, _⟩; cases hm
  | cons a rest ih =>
      by_cases ha : a = s
      · simp only [checkShapes, ha, if_pos rfl]
        apply ih
        rcases h with ⟨sh, hm, hne⟩
        rcases List.mem_cons.mp hm with hsh | hsh
        · exact absurd (hsh.trans ha) hne
        · exact ⟨sh, hsh, hne⟩
      · simp [checkShapes, ha]

theorem checkShapes_none_of_uniform {shapes : List FeatShape}
    (h : ∀ a ∈ shapes, ∀ b ∈ shapes, a = b) :
    checkShapes shapes none = .ok shapes.head? := by
  cases shapes with
  | nil => rfl
  | cons a rest =>
      show checkShapes rest (some a) = .ok (some a)
      exact checkShapes_ok_of_all (fun sh hsh =>
        h sh (List.mem_cons_of_mem a hsh) a (List.mem_cons_self a rest))

theorem filter_matchesSlice_none (l : List Event) : l.filter (matchesSlice none) = l := by
  induction l with
  | nil => rfl
  | cons ev rest ih => simp [List.filter_cons, matchesSlice, ih]

theorem filter_matchesFilters_none (l : List Event) :
    l.filter (matchesFilters none none none) = l := by
  induction l with
  | nil => rfl
  | cons ev rest ih =>
      simp [List.filter_cons, matchesFilters, matchesSlice, inTimeRange, ih]

theorem minFold_isSome {l : List Int} (h : l ≠ []) : (minFold l).isSome = true := by
  have aux : ∀ (xs : List Int) (m : Int),
      ((xs.foldl (fun acc t =>
        match acc with
        | none => some t
        | some m2 => if t < m2 then some t else some m2) (some m))).isSome = true := by
    intro xs
    induction xs with
    | nil => intro m; rfl
    | cons x rest ih =>
        intro m
        simp only [List.foldl_cons]
        by_cases hx : x < m
        · simp only [if_pos hx]; exact ih x
        · simp only [if_neg hx]; exact ih m
  cases l with
  | nil => exact absurd rfl h
  | cons x rest =>
      show ((rest.foldl _ (some x))).isSome = true
      exact aux rest x

theorem maxFold_isSome {l : List Int} (h : l ≠ []) : (maxFold l).isSome = true := by
  have aux : ∀ (xs : List Int) (m : Int),
      ((xs.foldl (fun acc t =>
        match acc with
        | none => some t
        | some m2 => if t > m2 then some t else some m2) (some m))).isSome = true := by
    intro xs
    induction xs with
    | nil => intro m; rfl
    | cons x rest ih =>
        intro m
        simp only [List.foldl_cons]
        by_cases hx : x > m
        · simp only [if_pos hx]; exact ih x
        · simp only [if_neg hx]; exact ih m
  cases l with
  | nil => exact absurd rfl h
  | cons x rest =>
      show ((rest.foldl _ (some x))).isSome = true
      exact aux rest x

theorem get_num_timestamps_none_eq_zero_iff (stg : DGStorage) :
    stg.get_num_timestamps none none none = 0 ↔ stg.events = [] := by
  rw [DGStorage.get_num_timestamps, filter_matchesFilters_none, timesFold_eq]
  simp [Finset.card_eq_zero]

theorem get_start_time_none_isSome (stg : DGStorage) (h : stg.events ≠ []) :
    (stg.get_start_time none).isSome = true := by
  rw [DGStorage.get_start_time, filter_matchesSlice_none]
  exact minFold_isSome (by simpa using h)

theorem get_end_time_none_isSome (stg : DGStorage) (h : stg.events ≠ []) :
    (stg.get_end_time none).isSome = true := by
  rw [DGStorage.get_end_time, filter_matchesSlice_none]
  exact maxFold_isSome (by simpa using h)

theorem TimeUnit.nanos_pos {u : TimeUnit} (h : u ≠ TimeUnit.r) : 0 < u.nanos := by
  cases u <;> first | exact absurd rfl h | decide

theorem mkDGStorage_ok_events {evs : List Event} {stg : DGStorage}
    (h : mkDGStorage evs = .ok stg) : stg.events = evs := by
  cases h1 : checkShapes (nodeFeatShapes evs) none with
  | error m => simp only [mkDGStorage, h1] at h; cases h
  | ok r1 =>
      cases h2 : checkShapes (edgeFeatShapes evs) none with
      | error m =>
          have hv : mkDGStorage evs = .error m := by simp only [mkDGStorage, h1, h2]; rfl
          rw [hv] at h; cases h
      | ok r2 =>
          have hv : mkDGStorage evs = .ok ⟨evs, r1, r2⟩ := by
            simp only [mkDGStorage, h1, h2]; rfl
          rw [hv] at h
          injection h with h
          rw [← h]

theorem loaderInit_bs_nonpos (g : DGraphState) (bs : Int) (bu : TimeUnit) (dl : Bool)
    (h : bs ≤ 0) :
    loaderInit g bs bu dl = .error "ValueError: batch_size must be positive" := by
  simp [loaderInit, if_pos h]

theorem loaderInit_empty_view (stg : DGStorage) (td : TimeDeltaDG) (bs : Int)
    (bu : TimeUnit) (dl : Bool) (hbs : ¬ bs ≤ 0)
    (hz : stg.get_num_timestamps none none none = 0) :
    loaderInit ⟨stg, td, {}⟩ bs bu dl =
      .error "ValueError: cannot iterate an empty DGraph" := by
  simp only [loaderInit, if_neg hbs, DGraphState.num_timestamps]
  simp [hz]


/-- C8: append on a non-empty storage fails with the dimension-mismatch
ValueError exactly when a new event's per-kind feature shape conflicts with
the established shape; matching shapes succeed; on an empty storage any
internally consistent shapes are accepted and become the authoritative
shapes; every successful append extends the authoritative event list. -/
theorem c8_append_shape_check (st : DGStorage) (evs : List Event) :
    (∀ s, st.events ≠ [] → st.node_feats_shape = some s →
      (∃ sh ∈ nodeFeatShapes evs, sh ≠ s) → (st.append evs).isOk = false) ∧
    (∀ s, st.events ≠ [] → st.edge_feats_shape = some s →
      (∃ sh ∈ edgeFeatShapes evs, sh ≠ s) → (st.append evs).isOk = false) ∧
    (∀ sN sE, st.events ≠ [] → st.node_feats_shape = some sN →
      st.edge_feats_shape = some sE →
      (∀ sh ∈ nodeFeatShapes evs, sh = sN) → (∀ sh ∈ edgeFeatShapes evs, sh = sE) →
      st.append evs = .ok ⟨st.events ++ evs, some sN, some sE⟩) ∧
    (st.events = [] →
      (∀ a ∈ nodeFeatShapes evs, ∀ b ∈ nodeFeatShapes evs, a = b) →
      (∀ a ∈ edgeFeatShapes evs, ∀ b ∈ edgeFeatShapes evs, a = b) →
      st.append evs =
        .ok ⟨evs, (nodeFeatShapes evs).head?, (edgeFeatShapes evs).head?⟩) ∧
    (∀ st2, st.append evs = .ok st2 → st2.events = st.events ++ evs) := by
  have hemptyF : st.events ≠ [] → st.events.isEmpty = false := by
    intro h
    cases hev : st.events with
    | nil => exact absurd hev h
    | cons a l => rfl
  refine ⟨?_, ?_, ?_, ?_, ?_⟩
  · intro s hne hs hbad
    simp only [DGStorage.append, hemptyF hne, Bool.false_eq_true, if_false, hs,
      checkShapes_error_of_mismatch hbad]
    rfl
  · intro s hne hs hbad
    cases h1 : checkShapes (nodeFeatShapes evs)
        (if st.events.isEmpty then none else st.node_feats_shape) with
    | error msg =>
        simp only [DGStorage.append, h1]
        rfl
    | ok r =>
        have h2 : checkShapes (edgeFeatShapes evs)
            (if st.events.isEmpty then none else st.edge_feats_shape) =
            .error "ValueError: incompatible feature shape" := by
          simp only [hemptyF hne, Bool.false_eq_true, if_false, hs]
          exact checkShapes_error_of_mismatch hbad
        simp only [DGStorage.append, h1, h2]
        rfl
  · intro sN sE hne hsN hsE hallN hallE
    simp only [DGStorage.append, hemptyF hne, Bool.false_eq_true, if_false, hsN, hsE,
      checkShapes_ok_of_all hallN, checkShapes_ok_of_all hallE]
    rfl
  · intro hempty huniN huniE
    simp only [DGStorage.append, hempty, List.isEmpty_nil, if_true,
      checkShapes_none_of_uniform huniN, checkShapes_none_of_uniform huniE]
    rfl
  · intro st2 hok
    cases h1 : checkShapes (nodeFeatShapes evs)
        (if st.events.isEmpty then none else st.node_feats_shape) with
    | error msg =>
        have hval : st.append evs = .error msg := by
          simp only [DGStorage.append, h1]
          rfl
        rw [hval] at hok
        cases hok
    | ok r1 =>
        cases h2 : checkShapes (edgeFeatShapes evs)
            (if st.events.isEmpty then none else st.edge_feats_shape) with
        | error msg =>
            have hval : st.append evs = .error msg := by
              simp only [DGStorage.append, h1, h2]
              rfl
            rw [hval] at hok
            cases hok
        | ok r2 =>
            have hval : st.append evs = .ok ⟨st.events ++ evs, r1, r2⟩ := by
              simp only [DGStorage.append, h1, h2]
              rfl
            rw [hval] at hok
            injection hok with h
            rw [← h]

theorem c8_append_shape_check_witness :
    DGStorage.append ⟨[], none, none⟩
      [Event.node 1 0 (some [3]), Event.edge 1 (0, 1) (some [2, 2])] =
      .ok ⟨[Event.node 1 0 (some [3]), Event.edge 1 (0, 1) (some [2, 2])],
        some [3], some [2, 2]⟩ := by
  have h := (c8_append_shape_check ⟨[], none, none⟩
    [Event.node 1 0 (some [3]), Event.edge 1 (0, 1) (some [2, 2])]).2.2.2.1
    rfl (by decide) (by decide)
  exact h

/-- C9: get_num_edges counts the distinct (time, (src, dst)) triples among
the edge events passing the slice filters, so appending an exact duplicate
of a matching edge event leaves num_edges unchanged while num_events grows
by one (two identical EdgeEvents at one timestamp contribute 1 and 2). -/
theorem c9_num_edges_dedup (st : DGStorage) (s e : Option Int)
    (ns : Option (Finset Nat)) :
    st.get_num_edges s e ns = (st.events.filterMap (edgePairOf s e ns)).toFinset.card ∧
    (∀ (t : Int) (p : Nat × Nat) (f : Option FeatShape),
      Event.edge t p f ∈ st.events →
      inTimeRange s e t = true →
      matchesSlice ns (Event.edge t p f) = true →
      DGStorage.get_num_edges ⟨st.events ++ [Event.edge t p f], st.node_feats_shape,
          st.edge_feats_shape⟩ s e ns = st.get_num_edges s e ns ∧
      DGStorage.get_num_events ⟨st.events ++ [Event.edge t p f], st.node_feats_shape,
          st.edge_feats_shape⟩ s e ns = st.get_num_events s e ns + 1) := by
  refine ⟨get_num_edges_eq_card st s e ns, ?_⟩
  intro t p f hmem hin hns
  have hcond : edgeCond s e ns t p = true := by
    simp only [edgeCond, Bool.and_eq_true]
    refine ⟨hin, ?_⟩
    simpa [matchesSlice, Event.matchesNodeSlice] using hns
  constructor
  · rw [get_num_edges_eq_card, get_num_edges_eq_card]
    have hpair : edgePairOf s e ns (Event.edge t p f) = some (t, p.1, p.2) := by
      simp [edgePairOf, hcond]
    have hmem2 : (t, p.1, p.2) ∈ (st.events.filterMap (edgePairOf s e ns)).toFinset := by
      rw [List.mem_toFinset, List.mem_filterMap]
      exact ⟨Event.edge t p f, hmem, hpair⟩
    have hsplit : ((st.events ++ [Event.edge t p f]).filterMap (edgePairOf s e ns))
        = st.events.filterMap (edgePairOf s e ns) ++ [(t, p.1, p.2)] := by
      simp [List.filterMap_append, hpair]
    rw [hsplit, List.toFinset_append]
    congr 1
    have hsingle : (([(t, p.1, p.2)] : List (Int × Nat × Nat)).toFinset
        : Finset (Int × Nat × Nat)) = {(t, p.1, p.2)} := by simp
    rw [hsingle, Finset.union_eq_left.mpr (Finset.singleton_subset_iff.mpr hmem2)]
  · simp only [DGStorage.get_num_events, DGStorage.to_events, List.filter_append]
    have hf : matchesFilters s e ns (Event.edge t p f) = true := by
      simp [matchesFilters, Event.time, hin, hns]
    simp [hf]

theorem c9_num_edges_dedup_witness :
    DGStorage.get_num_edges
      ⟨[Event.edge 3 (1, 2) none, Event.edge 3 (1, 2) none], none, none⟩
      none none none = 1 ∧
    DGStorage.get_num_events
      ⟨[Event.edge 3 (1, 2) none, Event.edge 3 (1, 2) none], none, none⟩
      none none none = 2 := by
  have h := (c9_num_edges_dedup ⟨[Event.edge 3 (1, 2) none], none, none⟩
    none none none).2 3 (1, 2) none (by decide) (by decide) (by decide)
  exact ⟨h.1.trans (by decide), h.2.trans (by decide)⟩

/-- C10: over a freshly built view, loader construction succeeds exactly
when the batch size is positive, the view is non-empty, the view and the
batch unit agree on orderedness, and — for physical windowing — the view's
granularity is not strictly coarser than the requested batch window; every
violation raises a ValueError immediately. -/
theorem c10_loader_validation (evs : List Event) (td : TimeDeltaDG)
    (hv : 0 < td.value) (g : DGraphState)
    (hmk : mkDGraph evs (some td) = .ok g)
    (bs : Int) (bu : TimeUnit) (dl : Bool) :
    (loaderInit g bs bu dl).isOk = true ↔
      (0 < bs ∧ evs ≠ [] ∧ (td.unit = TimeUnit.r ↔ bu = TimeUnit.r) ∧
       (td.unit ≠ TimeUnit.r →
         td.is_coarser_than ⟨bu, bs.toNat⟩ = false)) := by
  obtain ⟨stg, hstg, rfl⟩ :
      ∃ stg, mkDGStorage evs = .ok stg ∧ g = ⟨stg, td, {}⟩ := by
    cases hs : mkDGStorage evs with
    | error m => simp only [mkDGraph, hs] at hmk; cases hmk
    | ok stg =>
        refine ⟨stg, rfl, ?_⟩
        have hred : mkDGraph evs (some td) = .ok ⟨stg, td, {}⟩ := by
          simp only [mkDGraph, hs]; rfl
        rw [hred] at hmk
        injection hmk with h
        rw [h]
  have hev : stg.events = evs := mkDGStorage_ok_events hstg
  by_cases hbs : bs ≤ 0
  · rw [loaderInit_bs_nonpos _ _ _ _ hbs]
    constructor
    · intro h; cases h
    · rintro ⟨h, -⟩; exact absurd h (by omega)
  · by_cases hempty : evs = []
    · have hz : stg.get_num_timestamps none none none = 0 :=
        (get_num_timestamps_none_eq_zero_iff stg).mpr (hev.trans hempty)
      rw [loaderInit_empty_view stg td bs bu dl hbs hz]
      constructor
      · intro h; cases h
      · rintro ⟨-, h, -⟩; exact absurd hempty h
    · have hne : stg.events ≠ [] := by rw [hev]; exact hempty
      have hcnt : ¬ stg.get_num_timestamps none none none = 0 := by
        rw [get_num_timestamps_none_eq_zero_iff stg, hev]; exact hempty
      obtain ⟨startT, hstart⟩ :=
        Option.isSome_iff_exists.mp (get_start_time_none_isSome stg hne)
      obtain ⟨endT, hend⟩ :=
        Option.isSome_iff_exists.mp (get_end_time_none_isSome stg hne)
      by_cases htd : td.unit = TimeUnit.r
      · by_cases hbu : bu = TimeUnit.r
        · have hT : (loaderInit ⟨stg, td, {}⟩ bs bu dl).isOk = true := by
            have hbz : ¬ bs = 0 := by omega
            simp only [loaderInit, if_neg hbs, DGraphState.num_timestamps,
              if_neg hcnt, TimeDeltaDG.is_ordered, htd, hbu,
              DGraphState.start_time, DGraphState.end_time, hstart, hend]
            simp [Except.isOk, Except.toBool, hbz, hstart, hend]
          rw [hT]
          simp only [true_iff, iff_true]
          exact ⟨by omega, hempty, by simp [htd, hbu], fun h => absurd htd h⟩
        · have hE : (loaderInit ⟨stg, td, {}⟩ bs bu dl).isOk = false := by
            simp only [loaderInit, if_neg hbs, DGraphState.num_timestamps,
              if_neg hcnt, TimeDeltaDG.is_ordered, htd, hbu]
            simp [Except.isOk, Except.toBool, hbu]
          rw [hE]
          constructor
          · intro h; cases h
          · rintro ⟨-, -, hiff, -⟩; exact absurd (hiff.mp htd) hbu
      · by_cases hbu : bu = TimeUnit.r
        · have hE : (loaderInit ⟨stg, td, {}⟩ bs bu dl).isOk = false := by
            simp only [loaderInit, if_neg hbs, DGraphState.num_timestamps,
              if_neg hcnt, TimeDeltaDG.is_ordered, hbu]
            simp [Except.isOk, Except.toBool, htd]
          rw [hE]
          constructor
          · intro h; cases h
          · rintro ⟨-, -, hiff, -⟩; exact absurd (hiff.mpr hbu) htd
        · have hvz : ¬ bs.toNat = 0 := by omega
          have hmk2 : mkTimeDeltaDG bu bs.toNat = .ok ⟨bu, bs.toNat⟩ := by
            simp [mkTimeDeltaDG, hvz, hbu]
          by_cases hco : td.is_coarser_than ⟨bu, bs.toNat⟩ = true
          · have hE : (loaderInit ⟨stg, td, {}⟩ bs bu dl).isOk = false := by
              simp only [loaderInit, if_neg hbs, DGraphState.num_timestamps,
                if_neg hcnt, TimeDeltaDG.is_ordered, htd, hbu, hmk2, hco]
              simp [Except.isOk, Except.toBool, htd, hbu, hmk2, hco,
                except_bind_ok, except_bind_error]
            rw [hE]
            constructor
            · intro h; cases h
            · rintro ⟨-, -, -, hlast⟩
              rw [hlast htd] at hco
              cases hco
          · have hco2 : td.is_coarser_than ⟨bu, bs.toNat⟩ = false := by
              simpa using hco
            have hph : 0 < td.nanosTotal :=
              Nat.mul_pos (TimeUnit.nanos_pos htd) hv
            have hle : td.nanosTotal ≤ TimeDeltaDG.nanosTotal ⟨bu, bs.toNat⟩ := by
              have hx := hco
              simp only [TimeDeltaDG.is_coarser_than, decide_eq_true_eq] at hx
              omega
            have hdiv : 1 ≤ TimeDeltaDG.nanosTotal ⟨bu, bs.toNat⟩ / td.nanosTotal :=
              (Nat.one_le_div_iff hph).mpr hle
            have hbz : ¬ ((TimeDeltaDG.nanosTotal ⟨bu, bs.toNat⟩ : Int) /
                (td.nanosTotal : Int) = 0) := by
              rw [← Int.ofNat_ediv, Int.natCast_eq_zero]
              omega
            have hT : (loaderInit ⟨stg, td, {}⟩ bs bu dl).isOk = true := by
              simp only [loaderInit, if_neg hbs, DGraphState.num_timestamps,
                if_neg hcnt, TimeDeltaDG.is_ordered, htd, hbu, hmk2, hco2,
                DGraphState.start_time, DGraphState.end_time, hstart, hend]
              simp [Except.isOk, Except.toBool, htd, hbu, hmk2, hco2, hbz,
                hstart, hend, except_bind_ok, except_bind_error]
            rw [hT]
            simp only [true_iff, iff_true]
            exact ⟨by omega, hempty, by simp [htd, hbu], fun _ => hco2⟩

theorem c10_loader_validation_witness :
    (loaderInit ⟨⟨[Event.node 1 0 none], none, none⟩, orderedDelta, {}⟩
      1 TimeUnit.r false).isOk = true := by
  have h := c10_loader_validation [Event.node 1 0 none] orderedDelta (by decide)
    ⟨⟨[Event.node 1 0 none], none, none⟩, orderedDelta, {}⟩ (by decide)
    1 TimeUnit.r false
  exact h.mpr (by decide)

end OpenDG
